import Mathlib

/-!
Verification of the gtcli account store and OAuth flow (src/account-storage.ts,
src/oauth-flow.ts, src/index.ts) against its specification.  The TypeScript
code is shallowly embedded: JSON values parsed by the platform `JSON.parse`
become an inductive `Json`, the JS `Map` backing the account collection becomes
an insertion-ordered association list, files become a `FileData` that records
whether the file exists and whether its text parses, and fallible operations
return `Except`/`Option`.
-/

namespace Gtcli

/-- A JSON value as produced by the platform `JSON.parse`. -/
inductive Json where
  | null
  | bool (b : Bool)
  | num (n : Int)
  | str (s : String)
  | arr (items : List Json)
  | obj (fields : List (String × Json))

/-- The content of a file as seen through `fs.existsSync` + `JSON.parse`:
the file may be absent, present but not valid JSON (`JSON.parse` throws),
or present and parsed to a `Json` value. -/
inductive FileData where
  | absent
  | malformed
  | json (j : Json)

/-- JS property read `x[k]` on a parsed JSON value: only objects have the
named properties relevant here; `JSON.parse` keeps the last duplicate key. -/
def jProp (j : Json) (k : String) : Option Json :=
  match j with
  | .obj fields => (fields.reverse.find? (fun p => p.1 == k)).map (fun p => p.2)
  | _ => none

/-- JS `typeof x === "object" && x !== null`: true for parsed objects and
arrays (JSON `null` parses to the JS `null`, excluded by the second test). -/
def isObjectType : Json → Bool
  | .obj _ => true
  | .arr _ => true
  | _ => false

/-- `typeof x === "string"` on a possibly-absent property value. -/
def isStringVal : Option Json → Bool
  | some (.str _) => true
  | _ => false

/-- account-storage.ts `isValidAccount`: the record is an object whose
`email` is a string and whose `oauth2` is a non-null object with string
`clientId`, `clientSecret` and `refreshToken`.  Emptiness is not checked. -/
def isValidAccount (a : Json) : Bool :=
  isObjectType a &&
  isStringVal (jProp a "email") &&
  (match jProp a "oauth2" with
   | some o =>
     isObjectType o &&
     isStringVal (jProp o "clientId") &&
     isStringVal (jProp o "clientSecret") &&
     isStringVal (jProp o "refreshToken")
   | none => false)

/-- The `email` property of a record, as the string used for the map key
(`this.accounts.set(account.email, account)`); defaults are irrelevant
because every caller guards with `isValidAccount` or a typed record. -/
def emailOf (a : Json) : String :=
  match jProp a "email" with
  | some (.str s) => s
  | _ => ""

/-- JS `Map.set`: update in place when the key exists (keeping its insertion
position), otherwise append at the end. -/
def mapSet (m : List (String × Json)) (k : String) (v : Json) : List (String × Json) :=
  match m with
  | [] => [(k, v)]
  | (k', v') :: rest => if k' = k then (k, v) :: rest else (k', v') :: mapSet rest k v

/-- JS `Map.get`, `undefined` as `none`. -/
def mapGet (m : List (String × Json)) (k : String) : Option Json :=
  (m.find? (fun p => p.1 == k)).map (fun p => p.2)

/-- JS `Map.has`. -/
def mapHas (m : List (String × Json)) (k : String) : Bool :=
  m.any (fun p => p.1 == k)

/-- JS `Map.delete`'s effect on the entries (a JS `Map` holds each key at
most once, so removing every entry with the key is the same removal). -/
def mapDelete (m : List (String × Json)) (k : String) : List (String × Json) :=
  m.filter (fun p => p.1 != k)

/-- One iteration of the `loadAccounts` loop body. -/
def loadStep (m : List (String × Json)) (a : Json) : List (String × Json) :=
  if isValidAccount a then mapSet m (emailOf a) a else m

/-- account-storage.ts `loadAccounts`, as a function from the accounts file
to the resulting in-memory collection (the method starts from an empty map):
a missing file is skipped, a parse failure is swallowed (`catch {}`), a
non-array root is ignored, and each array element is kept only when
`isValidAccount` accepts it. -/
def loadAccounts (file : FileData) : List (String × Json) :=
  match file with
  | .absent => []
  | .malformed => []
  | .json j =>
    match j with
    | .arr items => items.foldl loadStep []
    | _ => []

/-- The in-memory state of an `AccountStorage` instance together with the
two backing files. -/
structure StorageState where
  accounts : List (String × Json)
  accountsFile : FileData
  credentialsFile : FileData

/-- The JSON value written by `saveAccounts`:
`JSON.stringify(Array.from(this.accounts.values()))`. -/
def savedAccountsJson (m : List (String × Json)) : Json :=
  .arr (m.map (fun p => p.2))

/-- account-storage.ts `addAccount`: upsert by email key, then rewrite the
accounts file from the map's values. -/
def addAccount (st : StorageState) (a : Json) : StorageState :=
  let m := mapSet st.accounts (emailOf a) a
  { st with accounts := m, accountsFile := .json (savedAccountsJson m) }

/-- account-storage.ts `getAccount`: pure map lookup, no I/O. -/
def getAccount (st : StorageState) (email : String) : Option Json :=
  mapGet st.accounts email

/-- account-storage.ts `getAllAccounts`: snapshot of the map's values. -/
def getAllAccounts (st : StorageState) : List Json :=
  st.accounts.map (fun p => p.2)

/-- account-storage.ts `deleteAccount`: `Map.delete` returns whether the key
was present; the file is rewritten only when it was. -/
def deleteAccount (st : StorageState) (email : String) : Bool × StorageState :=
  if mapHas st.accounts email then
    let m := mapDelete st.accounts email
    (true, { st with accounts := m, accountsFile := .json (savedAccountsJson m) })
  else
    (false, st)

/-- account-storage.ts `hasAccount`: pure map membership test. -/
def hasAccount (st : StorageState) (email : String) : Bool :=
  mapHas st.accounts email

/-- The JSON object written by `setCredentials`:
`JSON.stringify({ clientId, clientSecret })`. -/
def credentialsJson (clientId clientSecret : String) : Json :=
  .obj [("clientId", .str clientId), ("clientSecret", .str clientSecret)]

/-- account-storage.ts `setCredentials`: overwrite the credentials file
wholesale. -/
def setCredentials (st : StorageState) (clientId clientSecret : String) : StorageState :=
  { st with credentialsFile := .json (credentialsJson clientId clientSecret) }

/-- account-storage.ts `getCredentials`: `null` when the file is missing,
when `JSON.parse` throws (caught), or when either field is missing or not a
string; otherwise the parsed object itself is returned.  (When the parsed
root is JS `null` the property access throws inside the same `try` and is
caught, so that path also yields `null`, matching this equation.) -/
def getCredentials (file : FileData) : Option Json :=
  match file with
  | .absent => none
  | .malformed => none
  | .json j =>
    if isStringVal (jProp j "clientId") && isStringVal (jProp j "clientSecret") then some j
    else none

/-! ### OAuth flow (oauth-flow.ts) -/

/-- The fields of a token-endpoint response (google-auth-library
`Credentials`) read by `exchangeCode`; a field may be absent/null. -/
structure TokenResponse where
  refreshTok : Option String
  accessTok : Option String
deriving DecidableEq

/-- oauth-flow.ts `OAuthResult`. -/
structure OAuthResult where
  refreshToken : String
  accessToken : Option String
deriving DecidableEq

/-- JS truthiness test `!x` for a string-or-absent value: `undefined`,
`null` and the empty string are falsy. -/
def strFalsy : Option String → Bool
  | none => true
  | some s => s == ""

/-- oauth-flow.ts `exchangeCode`, as a function of the token-endpoint
response: `if (!tokens.refresh_token) throw`, otherwise return both tokens
(`access_token ?? undefined` keeps any string, including the empty one). -/
def exchangeCode (tokens : TokenResponse) : Except String OAuthResult :=
  if strFalsy tokens.refreshTok then
    .error "No refresh token received. Try revoking app access and re-authorizing."
  else
    .ok { refreshToken := tokens.refreshTok.getD "", accessToken := tokens.accessTok }

/-- Hexadecimal digit value, as used by the platform percent-decoders. -/
def hexDigit? (c : Char) : Option Nat :=
  if '0' ≤ c ∧ c ≤ '9' then some (c.toNat - '0'.toNat)
  else if 'a' ≤ c ∧ c ≤ 'f' then some (c.toNat - 'a'.toNat + 10)
  else if 'A' ≤ c ∧ c ≤ 'F' then some (c.toNat - 'A'.toNat + 10)
  else none

/-- The forgiving `application/x-www-form-urlencoded` decoding applied by
`URLSearchParams` to parameter names and values: `+` becomes a space, a
valid `%HH` pair becomes the byte's character, and an invalid percent
sequence is kept literally.  Decoded bytes are kept one character per byte:
the platform additionally reassembles multi-byte UTF-8 sequences (with
U+FFFD replacement), which this model does not.  The two agree wherever
every escaped byte is below 0x80, which covers every input a theorem below
evaluates; a multi-byte escape yields only non-ASCII characters on both
sides, so no such escape can produce the ASCII name `code` or the empty
string, and the routing inside `extractCodeFromUrl` is unaffected. -/
def formDecode : List Char → List Char
  | [] => []
  | '+' :: rest => ' ' :: formDecode rest
  | '%' :: a :: b :: rest =>
    match hexDigit? a, hexDigit? b with
    | some x, some y => Char.ofNat (16 * x + y) :: formDecode rest
    | _, _ => '%' :: formDecode (a :: b :: rest)
  | c :: rest => c :: formDecode rest

/-- A percent-escape's byte value. -/
def hexByte? (a b : Char) : Option Nat :=
  match hexDigit? a, hexDigit? b with
  | some x, some y => some (16 * x + y)
  | _, _ => none

/-- Whether a byte is a UTF-8 continuation byte (`10xxxxxx`). -/
def isContByte (v : Nat) : Bool :=
  0x80 ≤ v && v ≤ 0xBF

/-- The strict decoding of the platform `decodeURIComponent` (ECMA-262
`Decode` with an empty reserved set): `+` is left alone; a `%` must be
followed by two hex digits; an escaped lead byte must be followed
immediately by the right number of percent-escaped continuation bytes
forming a valid UTF-8 encoding of a code point (continuation or overlong
lead bytes 0x80-0xC1 and 0xF5-0xFF, overlong sequences, surrogates and
values above U+10FFFF are rejected); any violation throws `URIError`
(`none` here). -/
def uriDecode : List Char → Option (List Char)
  | [] => some []
  | '%' :: a :: b :: rest =>
    match hexByte? a b with
    | none => none
    | some v =>
      if v < 0x80 then (uriDecode rest).map (fun l => Char.ofNat v :: l)
      else if v < 0xC2 then none
      else if v ≤ 0xDF then
        match rest with
        | '%' :: a2 :: b2 :: rest2 =>
          match hexByte? a2 b2 with
          | some v2 =>
            if isContByte v2 then
              (uriDecode rest2).map (fun l => Char.ofNat ((v - 0xC0) * 0x40 + (v2 - 0x80)) :: l)
            else none
          | none => none
        | _ => none
      else if v ≤ 0xEF then
        match rest with
        | '%' :: a2 :: b2 :: '%' :: a3 :: b3 :: rest3 =>
          match hexByte? a2 b2, hexByte? a3 b3 with
          | some v2, some v3 =>
            if isContByte v2 && isContByte v3 then
              let cp := (v - 0xE0) * 0x1000 + (v2 - 0x80) * 0x40 + (v3 - 0x80)
              if 0x800 ≤ cp ∧ ¬(0xD800 ≤ cp ∧ cp ≤ 0xDFFF) then
                (uriDecode rest3).map (fun l => Char.ofNat cp :: l)
              else none
            else none
          | _, _ => none
        | _ => none
      else if v ≤ 0xF4 then
        match rest with
        | '%' :: a2 :: b2 :: '%' :: a3 :: b3 :: '%' :: a4 :: b4 :: rest4 =>
          match hexByte? a2 b2, hexByte? a3 b3, hexByte? a4 b4 with
          | some v2, some v3, some v4 =>
            if isContByte v2 && isContByte v3 && isContByte v4 then
              let cp := (v - 0xF0) * 0x40000 + (v2 - 0x80) * 0x1000 +
                        (v3 - 0x80) * 0x40 + (v4 - 0x80)
              if 0x10000 ≤ cp ∧ cp ≤ 0x10FFFF then
                (uriDecode rest4).map (fun l => Char.ofNat cp :: l)
              else none
            else none
          | _, _, _ => none
        | _ => none
      else none
  | '%' :: _ => none
  | c :: rest => (uriDecode rest).map (fun l => c :: l)

/-- A URL scheme: one alphabetic character followed by alphanumerics,
`+`, `-` or `.` (the WHATWG scheme grammar). -/
def validSchemeChars (cs : List Char) : Bool :=
  match cs with
  | [] => false
  | c :: rest => c.isAlpha && rest.all (fun d => d.isAlphanum || d == '+' || d == '-' || d == '.')

/-- The query portion of a URL string: everything after the first `?` that
occurs before the fragment — the fragment starts at the first `#`, so a `?`
appearing after a `#` starts no query. -/
def queryChars (cs : List Char) : List Char :=
  ((cs.takeWhile (fun c => c != '#')).dropWhile (fun c => c != '?')).drop 1

/-- Split the query on `&`. -/
def splitAmp : List Char → List (List Char)
  | [] => [[]]
  | '&' :: rest => [] :: splitAmp rest
  | c :: rest =>
    match splitAmp rest with
    | [] => [[c]]
    | g :: gs => (c :: g) :: gs

/-- One `name=value` query piece, both sides form-decoded; a piece without
`=` has an empty value. -/
def parsePair (piece : List Char) : String × String :=
  (String.mk (formDecode (piece.takeWhile (fun c => c != '='))),
   String.mk (formDecode ((piece.dropWhile (fun c => c != '=')).drop 1)))

/-- The `URLSearchParams` of a query string: empty pieces are skipped. -/
def parseQuery (cs : List Char) : List (String × String) :=
  ((splitAmp cs).filter (fun p => !p.isEmpty)).map parsePair

/-- `URLSearchParams.get`: the first value under the name, `null` as `none`. -/
def searchParamsGet (params : List (String × String)) (k : String) : Option String :=
  (params.find? (fun p => p.1 == k)).map (fun p => p.2)

/-- Model of the platform WHATWG `new URL(s)` as used by
`extractCodeFromUrl`, restricted to what that caller observes: construction
succeeds exactly when the string starts with a valid scheme followed by
`:` (a string with no scheme, such as `not-a-url?code=...`, throws), and the
result is observed only through `searchParams`. -/
def urlParse (s : String) : Option (List (String × String)) :=
  let cs := s.data
  if cs.contains ':' && validSchemeChars (cs.takeWhile (fun c => c != ':')) then
    some (parseQuery (queryChars cs))
  else none

/-- The regex fallback `url.match(/code=([^&]+)/)`: the capture at the first
occurrence of `code=` that is followed by at least one non-`&` character
(the regex engine advances past an occurrence whose capture would be
empty). -/
def matchCodeRegex : List Char → Option (List Char)
  | [] => none
  | c :: rest =>
    if c == 'c' && ['o', 'd', 'e', '='].isPrefixOf rest then
      let cap := (rest.drop 4).takeWhile (fun d => d != '&')
      if cap.isEmpty then matchCodeRegex rest else some cap
    else matchCodeRegex rest

/-- JS `url.includes("code=")`. -/
def containsCodeEq : List Char → Bool
  | [] => false
  | c :: rest => (c == 'c' && ['o', 'd', 'e', '='].isPrefixOf rest) || containsCodeEq rest

/-- The `catch` arm of `extractCodeFromUrl`: scan for `code=`, percent-decode
the capture (`decodeURIComponent` may itself throw), otherwise throw
`Invalid redirect URL`. -/
def extractFallback (cs : List Char) : Except String String :=
  if containsCodeEq cs then
    match matchCodeRegex cs with
    | some cap =>
      match uriDecode cap with
      | some d => .ok (String.mk d)
      | none => .error "URIError: URI malformed"
    | none => .error "Invalid redirect URL"
  else .error "Invalid redirect URL"

/-- oauth-flow.ts `extractCodeFromUrl`: parse as a URL and read the `code`
search parameter; a missing or empty `code` throws inside the `try` and is
caught, so every non-returning path of the `try` falls through to the
fallback scan. -/
def extractCodeFromUrl (url : String) : Except String String :=
  match urlParse url with
  | some params =>
    match searchParamsGet params "code" with
    | some code => if code == "" then extractFallback url.data else .ok code
    | none => extractFallback url.data
  | none => extractFallback url.data

/-! ### The interactive listener (authorizeBrowser), as a state machine

`authorizeBrowser` wires three callbacks around one promise: the request
handler, the bind-error handler and the five-minute timer.  The embedding
makes the event-driven execution explicit: a `ListenerState` records
whether the server is still listening and whether (and how) the promise has
settled, and `stepListener` is the transition the code performs on each
event.  A closed server accepts no further requests, so a `request` event
fired at a non-listening state leaves it unchanged; the timer is never
cleared, so `timerFire` may occur at any point (settling a promise twice is
a no-op). -/

/-- An event delivered to the `authorizeBrowser` callbacks: an incoming
redirect request carrying its `code`/`error` search parameters (and the
token-endpoint response the provider would give for its code), or the
five-minute timer firing. -/
inductive FlowEvent where
  | request (code : Option String) (err : Option String) (tokens : TokenResponse)
  | timerFire

/-- The listener's observable state: whether the server socket is still
listening, and how the flow's promise has settled, if it has. -/
structure ListenerState where
  listening : Bool
  settled : Option (Except String OAuthResult)

/-- A promise settles at most once; later resolve/reject calls are no-ops. -/
def settle (s : Option (Except String OAuthResult)) (r : Except String OAuthResult) :
    Option (Except String OAuthResult) :=
  match s with
  | none => some r
  | some x => some x

/-- The transition of oauth-flow.ts lines 96-140 on one event: an `error`
parameter closes the server and rejects; a `code` closes the server and
settles with the exchange's outcome; any other request is answered 400 with
no effect on flow state; the timer closes the server and rejects with the
timeout error.  Truthiness of the parameters follows JS (`""` is falsy). -/
def stepListener (s : ListenerState) (e : FlowEvent) : ListenerState :=
  match e with
  | .timerFire =>
    { listening := false,
      settled := settle s.settled (.error "Authorization timed out after 5 minutes") }
  | .request code err tokens =>
    if !s.listening then s
    else if !(strFalsy err) then
      { listening := false,
        settled := settle s.settled (.error ("Authorization failed: " ++ err.getD "")) }
    else if !(strFalsy code) then
      { listening := false, settled := settle s.settled (exchangeCode tokens) }
    else s

/-- The state right after `server.listen`: either the bind succeeded and the
flow waits, or the `error` event fired (port in use) and the promise was
rejected without the socket ever listening. -/
def initListener (bindOk : Bool) : ListenerState :=
  if bindOk then { listening := true, settled := none }
  else { listening := false, settled := some (.error "Failed to start local server") }

/-- The listener state after a sequence of events. -/
def runListener (bindOk : Bool) (evs : List FlowEvent) : ListenerState :=
  evs.foldl stepListener (initListener bindOk)

/-- Whether an event completes a request in state `s`: the server is
listening and the request carries a truthy `error` or a truthy `code`
(these are the two arms that settle the flow). -/
def completesFlow (s : ListenerState) (e : FlowEvent) : Bool :=
  match e with
  | .request code err _ => s.listening && (!(strFalsy err) || !(strFalsy code))
  | .timerFire => false

/-- How many events of a trace complete a request. -/
def completedCount (s : ListenerState) : List FlowEvent → Nat
  | [] => 0
  | e :: rest => (if completesFlow s e then 1 else 0) + completedCount (stepListener s e) rest

/-! ### The `accounts add` command (index.ts handleAccounts) -/

/-- A string property of a parsed credentials object, as the typed TS reads
`creds.clientId` (always a string under `getCredentials`'s check). -/
def jStrD (o : Option Json) : String :=
  match o with
  | some (.str s) => s
  | _ => ""

/-- The `Account` object built by `accounts add` from the stored client
credentials and the flow result; `JSON.stringify` drops an `undefined`
`accessToken`, so an absent access token contributes no field. -/
def accountJson (email : String) (creds : Json) (r : OAuthResult) : Json :=
  .obj [("email", .str email),
        ("oauth2", .obj (
          [("clientId", .str (jStrD (jProp creds "clientId"))),
           ("clientSecret", .str (jStrD (jProp creds "clientSecret"))),
           ("refreshToken", .str r.refreshToken)] ++
          (match r.accessToken with
           | some a => [("accessToken", .str a)]
           | none => [])))]

/-- The outcome of the `accounts add` command: the message printed or error
raised, the storage state afterwards, and whether the network flow
(`flow.authorize`, which performs the authorization and token exchange)
was invoked. -/
structure AddResult where
  message : Except String String
  state : StorageState
  networkAttempted : Bool

/-- index.ts `handleAccounts`, `add` arm: reject a duplicate email first,
then require stored credentials, and only then run the OAuth flow (whose
outcome is the `authorize` argument) and persist the new account. -/
def handleAccountsAdd (st : StorageState) (email : String)
    (authorize : Except String OAuthResult) : AddResult :=
  if hasAccount st email then
    { message := .error ("Account '" ++ email ++ "' already exists"),
      state := st, networkAttempted := false }
  else
    match getCredentials st.credentialsFile with
    | none =>
      { message := .error "No credentials configured. Run: gtcli accounts credentials <credentials.json>",
        state := st, networkAttempted := false }
    | some creds =>
      match authorize with
      | .error e => { message := .error e, state := st, networkAttempted := true }
      | .ok r =>
        { message := .ok ("Account '" ++ email ++ "' added"),
          state := addAccount st (accountJson email creds r),
          networkAttempted := true }

/-! ### Auxiliary definitions used by the statements -/

/-- Whether a JSON value is an array. -/
def isArr : Json → Bool
  | .arr _ => true
  | _ => false

/-- The last element of `items` that `isValidAccount` accepts and whose
email is `e` — the record that "last entry wins" keeps for that email. -/
def lastValidFor (e : String) : List Json → Option Json
  | [] => none
  | a :: rest =>
    match lastValidFor e rest with
    | some b => some b
    | none => if isValidAccount a && emailOf a == e then some a else none

/-- A non-empty-string test on a possibly-absent property value, for the
specification's wording of the invariant. -/
def isNonEmptyStringVal : Option Json → Bool
  | some (.str s) => !s.isEmpty
  | _ => false

/-- The Account Record invariant as the specification words it (written
from the spec, for comparison with the code's `isValidAccount`): `email`
and `oauth2.clientId`, `oauth2.clientSecret`, `oauth2.refreshToken` must
all be non-empty strings. -/
def specValidAccount (a : Json) : Bool :=
  isNonEmptyStringVal (jProp a "email") &&
  (match jProp a "oauth2" with
   | some o =>
     isNonEmptyStringVal (jProp o "clientId") &&
     isNonEmptyStringVal (jProp o "clientSecret") &&
     isNonEmptyStringVal (jProp o "refreshToken")
   | none => false)

/-- A record whose fields are all present but empty strings: it violates
the specification's invariant while passing the code's `isValidAccount`. -/
def emptyEmailAccount : Json :=
  .obj [("email", .str ""),
        ("oauth2", .obj [("clientId", .str ""), ("clientSecret", .str ""),
                         ("refreshToken", .str "")])]

/-- The valid sample record of the repository's own storage test. -/
def validSampleAccount : Json :=
  .obj [("email", .str "valid@example.com"),
        ("oauth2", .obj [("clientId", .str "c"), ("clientSecret", .str "s"),
                         ("refreshToken", .str "r")])]

/-- The test's first invalid record: `oauth2` missing. -/
def invalidSample1 : Json := .obj [("email", .str "invalid")]

/-- The test's second invalid record: `email` missing. -/
def invalidSample2 : Json := .obj [("invalid", .bool true)]

/-- A store holding the one valid sample record. -/
def sampleStore : StorageState :=
  { accounts := [("valid@example.com", validSampleAccount)],
    accountsFile := .json (savedAccountsJson [("valid@example.com", validSampleAccount)]),
    credentialsFile := .absent }

/-! ### Lemmas about the map model -/

theorem mapGet_mapSet_self (m : List (String × Json)) (k : String) (v : Json) :
    mapGet (mapSet m k v) k = some v := by
  induction m with
  | nil => simp [mapSet, mapGet]
  | cons p rest ih =>
    obtain ⟨k', v'⟩ := p
    by_cases h : k' = k
    · subst h
      simp [mapSet, mapGet]
    · simp only [mapSet, if_neg h, mapGet, List.find?]
      have : (k' == k) = false := by simpa using h
      simp only [this]
      exact ih

theorem mapGet_mapSet_ne (m : List (String × Json)) (k k' : String) (v : Json)
    (h : k' ≠ k) : mapGet (mapSet m k v) k' = mapGet m k' := by
  have hne : (k == k') = false := by simpa using fun he => h he.symm
  induction m with
  | nil => simp [mapSet, mapGet, List.find?, hne]
  | cons p rest ih =>
    obtain ⟨k₀, v₀⟩ := p
    by_cases hk : k₀ = k
    · have hne₀ : (k₀ == k') = false := by rw [hk]; exact hne
      simp only [mapSet, if_pos hk, mapGet, List.find?, hne, hne₀]
    · simp only [mapSet, if_neg hk, mapGet, List.find?]
      cases hh : (k₀ == k') with
      | true => rfl
      | false => exact ih

theorem mapGet_mapDelete_ne (m : List (String × Json)) (k k' : String)
    (h : k' ≠ k) : mapGet (mapDelete m k) k' = mapGet m k' := by
  induction m with
  | nil => rfl
  | cons p rest ih =>
    obtain ⟨k₀, v₀⟩ := p
    by_cases hk : k₀ = k
    · subst hk
      have h₁ : (k₀ != k₀) = false := by simp
      have h₂ : (k₀ == k') = false := by simpa using fun he => h he.symm
      simp only [mapDelete, List.filter] at *
      simp only [h₁, mapGet, List.find?, h₂] at *
      exact ih
    · have h₁ : (k₀ != k) = true := by simpa using hk
      simp only [mapDelete, List.filter] at *
      simp only [h₁, mapGet, List.find?] at *
      cases hh : (k₀ == k') with
      | true => rfl
      | false => exact ih

theorem mem_mapSet (m : List (String × Json)) (k : String) (v : Json)
    (p : String × Json) (h : p ∈ mapSet m k v) : p = (k, v) ∨ p ∈ m := by
  induction m with
  | nil =>
    simp [mapSet] at h
    exact .inl h
  | cons q rest ih =>
    obtain ⟨k₀, v₀⟩ := q
    by_cases hk : k₀ = k
    · subst hk
      simp only [mapSet, if_pos rfl] at h
      rcases List.mem_cons.mp h with h | h
      · exact .inl h
      · exact .inr (List.mem_cons_of_mem _ h)
    · simp only [mapSet, if_neg hk] at h
      rcases List.mem_cons.mp h with h | h
      · exact .inr (h ▸ List.mem_cons_self _ _)
      · rcases ih h with h | h
        · exact .inl h
        · exact .inr (List.mem_cons_of_mem _ h)

/-! ### Lemmas about loadAccounts -/

theorem mem_foldl_loadStep (items : List Json) (m : List (String × Json))
    (p : String × Json)
    (hm : ∀ q ∈ m, isValidAccount q.2 = true ∧ q.1 = emailOf q.2)
    (hp : p ∈ items.foldl loadStep m) :
    isValidAccount p.2 = true ∧ p.1 = emailOf p.2 := by
  induction items generalizing m with
  | nil => exact hm p hp
  | cons a rest ih =>
    refine ih (loadStep m a) ?_ hp
    intro q hq
    unfold loadStep at hq
    by_cases hv : isValidAccount a = true
    · rw [if_pos hv] at hq
      rcases mem_mapSet m (emailOf a) a q hq with rfl | hq'
      · exact ⟨hv, rfl⟩
      · exact hm q hq'
    · rw [if_neg hv] at hq
      exact hm q hq

theorem mapGet_foldl_loadStep (items : List Json) (m : List (String × Json))
    (e : String) :
    mapGet (items.foldl loadStep m) e = (lastValidFor e items).elim (mapGet m e) some := by
  induction items generalizing m with
  | nil => rfl
  | cons a rest ih =>
    show mapGet (rest.foldl loadStep (loadStep m a)) e = _
    rw [ih (loadStep m a)]
    have hstep : lastValidFor e (a :: rest) =
        match lastValidFor e rest with
        | some b => some b
        | none => if isValidAccount a && emailOf a == e then some a else none := rfl
    rw [hstep]
    cases hr : lastValidFor e rest with
    | some b => rfl
    | none =>
      show mapGet (loadStep m a) e =
        (if isValidAccount a && emailOf a == e then some a else none).elim (mapGet m e) some
      by_cases hv : isValidAccount a = true
      · by_cases he : emailOf a = e
        · have hc : (isValidAccount a && (emailOf a == e)) = true := by
            rw [hv, he]; simp
          rw [if_pos hc]
          show mapGet (loadStep m a) e = some a
          unfold loadStep
          rw [if_pos hv, ← he, mapGet_mapSet_self]
        · have hc : (isValidAccount a && (emailOf a == e)) = false := by
            have : (emailOf a == e) = false := by simpa using he
            rw [this]; simp
          rw [if_neg (by simp [hc])]
          show mapGet (loadStep m a) e = mapGet m e
          unfold loadStep
          rw [if_pos hv, mapGet_mapSet_ne m (emailOf a) e a (fun hx => he hx.symm)]
      · have hc : (isValidAccount a && (emailOf a == e)) = false := by
          have : isValidAccount a = false := by simpa using hv
          rw [this]; simp
        rw [if_neg (by simp [hc])]
        show mapGet (loadStep m a) e = mapGet m e
        unfold loadStep
        rw [if_neg hv]

/-! ### Lemmas about the listener state machine -/

theorem stepListener_not_listening (s : ListenerState) (e : FlowEvent)
    (h : s.listening = false) : (stepListener s e).listening = false := by
  cases e with
  | timerFire => rfl
  | request c er t => simp [stepListener, h]

theorem stepListener_cases (s : ListenerState) (e : FlowEvent) :
    (stepListener s e).listening = false ∨ stepListener s e = s := by
  cases e with
  | timerFire => exact .inl rfl
  | request c er t =>
    unfold stepListener
    by_cases hl : s.listening
    · by_cases he : strFalsy er
      · by_cases hc : strFalsy c
        · right; simp [hl, he, hc]
        · left; simp [hl, he, hc]
      · left; simp [hl, he]
    · right
      have : s.listening = false := by simpa using hl
      simp [this]

theorem foldl_settled_closed (evs : List FlowEvent) (s : ListenerState)
    (hs : s.settled.isSome = true → s.listening = false) :
    (evs.foldl stepListener s).settled.isSome = true →
    (evs.foldl stepListener s).listening = false := by
  induction evs generalizing s with
  | nil => exact hs
  | cons e rest ih =>
    refine ih (stepListener s e) ?_
    rcases stepListener_cases s e with h | h
    · intro _; exact h
    · rw [h]; exact hs

theorem completedCount_not_listening (evs : List FlowEvent) (s : ListenerState)
    (h : s.listening = false) : completedCount s evs = 0 := by
  induction evs generalizing s with
  | nil => rfl
  | cons e rest ih =>
    have hc : completesFlow s e = false := by
      cases e <;> simp [completesFlow, h]
    unfold completedCount
    rw [hc, ih (stepListener s e) (stepListener_not_listening s e h)]
    simp

theorem completesFlow_closes (s : ListenerState) (e : FlowEvent)
    (h : completesFlow s e = true) : (stepListener s e).listening = false := by
  cases e with
  | timerFire => rfl
  | request c er t =>
    have hl : s.listening = true := by
      by_contra hx
      simp [completesFlow, (by simpa using hx : s.listening = false)] at h
    unfold stepListener
    by_cases he : strFalsy er
    · have hc : strFalsy c = false := by
        simpa [completesFlow, hl, he] using h
      simp [hl, he, hc]
    · simp [hl, he]

theorem completedCount_le_one (s : ListenerState) (evs : List FlowEvent) :
    completedCount s evs ≤ 1 := by
  induction evs generalizing s with
  | nil => exact Nat.zero_le 1
  | cons e rest ih =>
    unfold completedCount
    by_cases h : completesFlow s e = true
    · rw [if_pos h, completedCount_not_listening rest _ (completesFlow_closes s e h)]
    · rw [if_neg (by simp [h])]
      simpa using ih (stepListener s e)

/-! ### Lemmas about the code-extraction fallback -/

theorem matchCodeRegex_none_of_not_contains (cs : List Char)
    (h : containsCodeEq cs = false) : matchCodeRegex cs = none := by
  induction cs with
  | nil => rfl
  | cons c rest ih =>
    unfold containsCodeEq at h
    rw [Bool.or_eq_false_iff] at h
    unfold matchCodeRegex
    rw [if_neg (by simp [h.1]), ih h.2]

theorem extractFallback_error_characterization (cs : List Char) (e : String)
    (h : extractFallback cs = .error e) :
    matchCodeRegex cs = none ∨
    ∃ cap, matchCodeRegex cs = some cap ∧ uriDecode cap = none := by
  by_cases hc : containsCodeEq cs = true
  · cases hm : matchCodeRegex cs with
    | none => exact .inl rfl
    | some cap =>
      cases hd : uriDecode cap with
      | none => exact .inr ⟨cap, rfl, hd⟩
      | some d =>
        exfalso
        have hok : extractFallback cs = .ok (String.mk d) := by
          unfold extractFallback
          rw [if_pos hc, hm]
          show (match uriDecode cap with
                | some d => Except.ok (String.mk d)
                | none => Except.error "URIError: URI malformed") = _
          rw [hd]
        rw [hok] at h
        exact Except.noConfusion h
  · exact .inl (matchCodeRegex_none_of_not_contains cs (by simpa using hc))

/-! ### The claims -/

/-- **C1, counterexample.** The claim requires a record to be dropped unless
`email` and the three `oauth2` fields are non-empty strings.  The code's
`isValidAccount` only checks that they are strings: the record whose fields
are all empty strings violates the spec's invariant, yet `loadAccounts`
keeps it (keyed by its empty email). -/
theorem loadAccounts_keeps_record_failing_spec_invariant :
    specValidAccount emptyEmailAccount = false ∧
    loadAccounts (.json (.arr [emptyEmailAccount])) = [("", emptyEmailAccount)] :=
  ⟨rfl, rfl⟩

/-- **C1 (amended).** Every record kept by `loadAccounts` passes the code's
`isValidAccount` check (string-typed `email` and `oauth2.clientId`,
`oauth2.clientSecret`, `oauth2.refreshToken`; emptiness is not checked) and
is keyed by its email; records failing the check are silently dropped, so
the file with one valid and two invalid entries yields exactly the valid
record. -/
theorem loadAccounts_keeps_exactly_valid_records :
    (∀ (items : List Json) (p : String × Json),
      p ∈ loadAccounts (.json (.arr items)) →
      isValidAccount p.2 = true ∧ p.1 = emailOf p.2) ∧
    loadAccounts (.json (.arr [validSampleAccount, invalidSample1, invalidSample2])) =
      [("valid@example.com", validSampleAccount)] := by
  constructor
  · intro items p hp
    exact mem_foldl_loadStep items [] p (by intro q hq; cases hq) hp
  · rfl

/-- Closed witness for the amended C1: the valid sample record is in the
loaded collection and indeed satisfies `isValidAccount`. -/
theorem loadAccounts_keeps_exactly_valid_records_witness :
    isValidAccount ("valid@example.com", validSampleAccount).2 = true ∧
    ("valid@example.com", validSampleAccount).1 =
      emailOf ("valid@example.com", validSampleAccount).2 :=
  loadAccounts_keeps_exactly_valid_records.1 [validSampleAccount, invalidSample1, invalidSample2]
    ("valid@example.com", validSampleAccount)
    (loadAccounts_keeps_exactly_valid_records.2.symm ▸ List.mem_singleton.mpr rfl)

/-- **C2.** `loadAccounts` is a total function of the file content (errors
are swallowed, never raised): a missing file, malformed JSON, or a
non-array root all yield the empty collection, and for an array root the
collection is keyed by email with the last valid entry winning on
duplicate emails. -/
theorem loadAccounts_total_spec :
    loadAccounts .absent = [] ∧
    loadAccounts .malformed = [] ∧
    (∀ j : Json, isArr j = false → loadAccounts (.json j) = []) ∧
    (∀ (items : List Json) (e : String),
      mapGet (loadAccounts (.json (.arr items))) e = lastValidFor e items) := by
  refine ⟨rfl, rfl, ?_, ?_⟩
  · intro j h
    cases j <;> first | rfl | exact absurd h (by simp [isArr])
  · intro items e
    show mapGet (items.foldl loadStep []) e = lastValidFor e items
    rw [mapGet_foldl_loadStep items [] e]
    cases lastValidFor e items <;> rfl

/-- Closed witness for C2, discharging both hypotheses at concrete inputs:
a non-array root (`null`) loads as empty, and a duplicate-email file keeps
the last valid entry. -/
theorem loadAccounts_total_spec_witness :
    loadAccounts (.json .null) = [] ∧
    mapGet (loadAccounts (.json (.arr [validSampleAccount, emptyEmailAccount, validSampleAccount])))
        "valid@example.com" =
      lastValidFor "valid@example.com" [validSampleAccount, emptyEmailAccount, validSampleAccount] :=
  ⟨loadAccounts_total_spec.2.2.1 .null rfl,
   loadAccounts_total_spec.2.2.2 [validSampleAccount, emptyEmailAccount, validSampleAccount]
     "valid@example.com"⟩

/-- **C3.** For every store state and valid account record, `addAccount`
followed by `getAccount` on the record's email returns exactly that record
(upsert by email key, whether or not the email was already present). -/
theorem addAccount_getAccount_roundtrip (st : StorageState) (a : Json)
    (hvalid : isValidAccount a = true) :
    getAccount (addAccount st a) (emailOf a) = some a := by
  unfold getAccount addAccount
  exact mapGet_mapSet_self st.accounts (emailOf a) a

/-- Closed witness for C3 at the sample record, over a store that already
holds a record under the same email (the upsert case). -/
theorem addAccount_getAccount_roundtrip_witness :
    getAccount (addAccount sampleStore validSampleAccount) (emailOf validSampleAccount) =
      some validSampleAccount :=
  addAccount_getAccount_roundtrip sampleStore validSampleAccount rfl

/-- **C4.** `deleteAccount` returns exactly `hasAccount`; on an unknown
email it returns `false` with the whole state (hence the file) untouched;
on a present email it rewrites the accounts file from the remaining map;
and in both cases every other email's record is unchanged. -/
theorem deleteAccount_spec (st : StorageState) (email : String) :
    (deleteAccount st email).1 = hasAccount st email ∧
    (hasAccount st email = false → (deleteAccount st email).2 = st) ∧
    (hasAccount st email = true →
      (deleteAccount st email).2.accountsFile =
        .json (savedAccountsJson (mapDelete st.accounts email))) ∧
    (∀ e', e' ≠ email → getAccount (deleteAccount st email).2 e' = getAccount st e') := by
  unfold deleteAccount hasAccount
  by_cases h : mapHas st.accounts email = true
  · rw [if_pos h]
    refine ⟨?_, ?_, ?_, ?_⟩
    · exact h.symm
    · intro hf; simp [h] at hf
    · intro _; rfl
    · intro e' he'
      show mapGet (mapDelete st.accounts email) e' = mapGet st.accounts e'
      exact mapGet_mapDelete_ne st.accounts email e' he'
  · have hf : mapHas st.accounts email = false := by simpa using h
    rw [if_neg (by simp [hf])]
    refine ⟨?_, ?_, ?_, ?_⟩
    · exact hf.symm
    · intro _; rfl
    · intro ht; simp [hf] at ht
    · intro _ _; rfl

/-- Closed witness for C4: deleting the present sample email reports `true`
and rewrites the file, deleting an unknown email reports `false` and leaves
the state untouched, and an unrelated email's record survives. -/
theorem deleteAccount_spec_witness :
    (deleteAccount sampleStore "valid@example.com").1 = hasAccount sampleStore "valid@example.com" ∧
    (deleteAccount sampleStore "unknown@example.com").2 = sampleStore ∧
    (deleteAccount sampleStore "valid@example.com").2.accountsFile =
      .json (savedAccountsJson (mapDelete sampleStore.accounts "valid@example.com")) ∧
    getAccount (deleteAccount sampleStore "valid@example.com").2 "other@example.com" =
      getAccount sampleStore "other@example.com" :=
  ⟨(deleteAccount_spec sampleStore "valid@example.com").1,
   (deleteAccount_spec sampleStore "unknown@example.com").2.1 rfl,
   (deleteAccount_spec sampleStore "valid@example.com").2.2.1 rfl,
   (deleteAccount_spec sampleStore "valid@example.com").2.2.2 "other@example.com" (by decide)⟩

/-- **C5.** `getCredentials` never throws: it returns `none` when the file
is absent, when its content fails to parse, or when `clientId` or
`clientSecret` is missing or not a string; otherwise it returns the stored
object itself. -/
theorem getCredentials_spec :
    getCredentials .absent = none ∧
    getCredentials .malformed = none ∧
    (∀ j : Json,
      (isStringVal (jProp j "clientId") && isStringVal (jProp j "clientSecret")) = false →
      getCredentials (.json j) = none) ∧
    (∀ j : Json,
      (isStringVal (jProp j "clientId") && isStringVal (jProp j "clientSecret")) = true →
      getCredentials (.json j) = some j) := by
  refine ⟨rfl, rfl, ?_, ?_⟩
  · intro j h
    show (if (isStringVal (jProp j "clientId") && isStringVal (jProp j "clientSecret")) = true
          then some j else none) = none
    rw [if_neg (by simp [h])]
  · intro j h
    show (if (isStringVal (jProp j "clientId") && isStringVal (jProp j "clientSecret")) = true
          then some j else none) = some j
    rw [if_pos h]

/-- Closed witness for C5: a file holding `null` (no string fields) yields
`none`; a well-formed credentials object is returned as stored. -/
theorem getCredentials_spec_witness :
    getCredentials (.json .null) = none ∧
    getCredentials (.json (credentialsJson "id" "secret")) = some (credentialsJson "id" "secret") :=
  ⟨getCredentials_spec.2.2.1 .null rfl,
   getCredentials_spec.2.2.2 (credentialsJson "id" "secret") rfl⟩

/-- **C10.** For every pair of strings, `setCredentials` followed by
`getCredentials` returns exactly the object `{clientId, clientSecret}`
just written, regardless of the credentials file's previous contents. -/
theorem setCredentials_getCredentials_roundtrip (st : StorageState) (c s : String) :
    getCredentials (setCredentials st c s).credentialsFile = some (credentialsJson c s) := rfl

/-- **C6, counterexample.** The claim says extraction fails only when no
`code=` substring is found at all.  Two inputs containing the substring
still fail: `"code="`, because the regex `/code=([^&]+)/` needs at least
one non-`&` character after `code=`, so the fallback finds no match and
throws `Invalid redirect URL`; and `"x?code=%"`, where the regex captures
`%` but `decodeURIComponent("%")` throws `URIError`.  These force the two
conditions of the amended failure clause. -/
theorem extractCodeFromUrl_fails_despite_code_substring :
    containsCodeEq "code=".data = true ∧
    extractCodeFromUrl "code=" = .error "Invalid redirect URL" ∧
    containsCodeEq "x?code=%".data = true ∧
    extractCodeFromUrl "x?code=%" = .error "URIError: URI malformed" :=
  ⟨rfl, rfl, rfl, rfl⟩

/-- **C6 (amended).** `extractCodeFromUrl` behaves as claimed on the four
concrete inputs; in general it fails only when no occurrence of `code=` is
followed by at least one non-`&` character (so a bare `code=` with an empty
value still fails), or when percent-decoding of the matched value fails.
Only this direction holds: the converse does not, since a well-formed URL
whose query spells the parameter name with a percent-escape can succeed
without any literal `code=` substring. -/
theorem extractCodeFromUrl_spec :
    extractCodeFromUrl "http://localhost:3000?code=auth_code_123&scope=tasks" =
      .ok "auth_code_123" ∧
    extractCodeFromUrl "not-a-url?code=fallback_code" = .ok "fallback_code" ∧
    extractCodeFromUrl "http://localhost:3000?error=access_denied" =
      .error "Invalid redirect URL" ∧
    extractCodeFromUrl "no-code-here" = .error "Invalid redirect URL" ∧
    (∀ (url e : String), extractCodeFromUrl url = .error e →
      matchCodeRegex url.data = none ∨
      ∃ cap, matchCodeRegex url.data = some cap ∧ uriDecode cap = none) := by
  refine ⟨rfl, rfl, rfl, rfl, ?_⟩
  intro url e h
  unfold extractCodeFromUrl at h
  cases hu : urlParse url with
  | none =>
    rw [hu] at h
    exact extractFallback_error_characterization url.data e h
  | some params =>
    rw [hu] at h
    have h' : (match searchParamsGet params "code" with
               | some code =>
                 if (code == "") = true then extractFallback url.data else Except.ok code
               | none => extractFallback url.data) = Except.error e := h
    cases hg : searchParamsGet params "code" with
    | none =>
      rw [hg] at h'
      exact extractFallback_error_characterization url.data e h'
    | some code =>
      rw [hg] at h'
      have h'' : (if (code == "") = true then extractFallback url.data else Except.ok code) =
          Except.error e := h'
      by_cases hc : (code == "") = true
      · rw [if_pos hc] at h''
        exact extractFallback_error_characterization url.data e h''
      · rw [if_neg hc] at h''
        exact Except.noConfusion h''

/-- Closed witness for C6 at a failing input: on `no-code-here` the error
is indeed explained by the absence of a `code=` match. -/
theorem extractCodeFromUrl_spec_witness :
    matchCodeRegex "no-code-here".data = none ∨
    ∃ cap, matchCodeRegex "no-code-here".data = some cap ∧ uriDecode cap = none :=
  extractCodeFromUrl_spec.2.2.2.2 "no-code-here" "Invalid redirect URL" rfl

/-- **C7, counterexample.** A token-endpoint response carrying both tokens,
but with the refresh token equal to the empty string, is a response
carrying a refresh token and an access token; the claim requires both to
be passed through unchanged, yet `!tokens.refresh_token` treats the empty
string as missing (JS falsiness) and the exchange fails. -/
theorem exchangeCode_empty_refresh_token_errors :
    exchangeCode { refreshTok := some "", accessTok := some "atoken" } =
      .error "No refresh token received. Try revoking app access and re-authorizing." ∧
    exchangeCode { refreshTok := some "", accessTok := some "atoken" } ≠
      .ok { refreshToken := "", accessToken := some "atoken" } := by
  refine ⟨rfl, ?_⟩
  intro h
  rw [(rfl : exchangeCode { refreshTok := some "", accessTok := some "atoken" } =
      .error "No refresh token received. Try revoking app access and re-authorizing.")] at h
  exact Except.noConfusion h

/-- **C7 (amended).** Whenever the response's refresh token is absent,
null or the empty string (JS-falsy), `exchangeCode` fails with a message
containing "No refresh token received"; whenever the refresh token is a
non-empty string, the refresh and access tokens are returned unchanged. -/
theorem exchangeCode_spec :
    (∀ t : TokenResponse, strFalsy t.refreshTok = true →
      ∃ rest, exchangeCode t = .error ("No refresh token received" ++ rest)) ∧
    (∀ (r : String) (a : Option String), r ≠ "" →
      exchangeCode { refreshTok := some r, accessTok := a } =
        .ok { refreshToken := r, accessToken := a }) := by
  constructor
  · intro t h
    refine ⟨". Try revoking app access and re-authorizing.", ?_⟩
    unfold exchangeCode
    rw [if_pos h]
    rfl
  · intro r a h
    unfold exchangeCode
    rw [if_neg (by simp [strFalsy, h])]
    rfl

/-- Closed witness for C7: a response with no refresh token at all fails
with the descriptive message, and a response with both tokens non-empty is
passed through unchanged. -/
theorem exchangeCode_spec_witness :
    (∃ rest, exchangeCode { refreshTok := none, accessTok := none } =
      .error ("No refresh token received" ++ rest)) ∧
    exchangeCode { refreshTok := some "refresh-token", accessTok := some "access-token" } =
      .ok { refreshToken := "refresh-token", accessToken := some "access-token" } :=
  ⟨exchangeCode_spec.1 { refreshTok := none, accessTok := none } rfl,
   exchangeCode_spec.2 "refresh-token" (some "access-token") (by decide)⟩

/-- **C8, counterexample.** The claim lists malformed input among the exit
paths on which the listener is closed.  A malformed request (neither `code`
nor `error`) is answered with HTTP 400 and the listener stays open with the
flow still pending, so the listener is not closed on that path. -/
theorem listener_open_after_malformed_request :
    (runListener true [.request none none { refreshTok := none, accessTok := none }]).listening
      = true ∧
    (runListener true [.request none none { refreshTok := none, accessTok := none }]).settled
      = none :=
  ⟨rfl, rfl⟩

/-- **C8 (amended).** Over every event trace of the interactive listener:
whenever the flow has resolved or rejected (success, denial, timeout, or
bind failure), the listener is no longer listening; and at most one request
completes the flow.  A malformed request is answered 400 with the listener
left open and the flow still pending. -/
theorem listener_closed_when_settled (bindOk : Bool) (evs : List FlowEvent) :
    ((runListener bindOk evs).settled.isSome = true →
      (runListener bindOk evs).listening = false) ∧
    completedCount (initListener bindOk) evs ≤ 1 ∧
    (∀ (s : ListenerState) (c er : Option String) (t : TokenResponse),
      strFalsy c = true → strFalsy er = true → stepListener s (.request c er t) = s) := by
  refine ⟨?_, completedCount_le_one (initListener bindOk) evs, ?_⟩
  · exact foldl_settled_closed evs (initListener bindOk)
      (by cases bindOk <;> simp [initListener])
  · intro s c er t hc her
    cases hl : s.listening <;> simp [stepListener, hc, her, hl]

/-- Closed witness for C8: a timed-out run has settled and its listener is
closed, and a malformed request leaves the state unchanged. -/
theorem listener_closed_when_settled_witness :
    (runListener true [.timerFire]).listening = false ∧
    completedCount (initListener true) [.timerFire] ≤ 1 ∧
    stepListener (initListener true)
        (.request none none { refreshTok := none, accessTok := none }) = initListener true :=
  ⟨(listener_closed_when_settled true [.timerFire]).1 rfl,
   (listener_closed_when_settled true [.timerFire]).2.1,
   (listener_closed_when_settled true [.timerFire]).2.2 (initListener true) none none
     { refreshTok := none, accessTok := none } rfl rfl⟩

/-- **C9.** Adding an account whose email already exists is rejected with
an error before the OAuth flow (authorization and token exchange) is
invoked, leaving the stored state — in particular the existing record —
unchanged. -/
theorem duplicate_account_rejected_before_network (st : StorageState) (email : String)
    (auth : Except String OAuthResult) (h : hasAccount st email = true) :
    handleAccountsAdd st email auth =
      { message := .error ("Account '" ++ email ++ "' already exists"),
        state := st, networkAttempted := false } := by
  unfold handleAccountsAdd
  rw [if_pos h]

/-- Closed witness for C9 at the sample store, whose email is present. -/
theorem duplicate_account_rejected_before_network_witness :
    handleAccountsAdd sampleStore "valid@example.com" (.ok { refreshToken := "r", accessToken := none }) =
      { message := .error ("Account '" ++ "valid@example.com" ++ "' already exists"),
        state := sampleStore, networkAttempted := false } :=
  duplicate_account_rejected_before_network sampleStore "valid@example.com"
    (.ok { refreshToken := "r", accessToken := none }) rfl

end Gtcli
